import Mathlib

/-!
Shallow embedding of the defi-health-monitor metrics pipeline.

Source of truth:
* `src/defi_health/collectors/defi_collector.py` (class `DefiDataCollector`):
  `_safe_float`, `get_protocol_health_metrics`, `_calculate_diversification_score`,
  `_calculate_stability_score`, `_assess_risk_level`, `analyze_protocols`.
* `src/defi_health/analyzers/protocol_analyzer.py` (class `ProtocolAnalyzer`):
  `calculate_market_metrics`, `_calculate_concentration`,
  `_analyze_chain_distribution`, `_analyze_risk_distribution`,
  `_calculate_top_dominance`.

Modelling conventions:
* Python floats are modelled by `ℚ` (the computations at issue are sums,
  divisions, `min` and comparisons, all exact on the inputs considered).
* Raw JSON values are the inductive `RawVal`; a raw protocol record is an
  association list `RawRecord` (Python dict with string keys).
* Python exceptions are modelled by `Option`: an operation that would raise
  (e.g. `len` of a number, iterating a non-iterable, division of Python ints
  by zero) is a partial function returning `none`, and a `try/except` block
  is the corresponding `Option`-valued computation.
* A pandas/numpy float division by exactly zero yields a non-finite value
  (NaN or ±inf), never an exception; such a value is modelled as `none` in an
  `Option ℚ` field.
* `datetime.now().timestamp()` is modelled by an explicit parameter
  `now : ℚ` (epoch seconds); `.timestamp()` of a naive parsed datetime is
  modelled with a UTC offset of 0.
-/

/-- A raw JSON value as delivered by the external source: `None`, a number,
a string, or a list. -/
inductive RawVal : Type
  | vnone : RawVal
  | num : ℚ → RawVal
  | str : String → RawVal
  | list : List RawVal → RawVal

mutual

/-- Python `==` on raw values (structural equality of the modelled values). -/
def RawVal.beq : RawVal → RawVal → Bool
  | RawVal.vnone, RawVal.vnone => true
  | RawVal.num a, RawVal.num b => a == b
  | RawVal.str a, RawVal.str b => a == b
  | RawVal.list as, RawVal.list bs => RawVal.beqs as bs
  | _, _ => false

/-- Python `==` on lists of raw values, elementwise. -/
def RawVal.beqs : List RawVal → List RawVal → Bool
  | [], [] => true
  | a :: as, b :: bs => RawVal.beq a b && RawVal.beqs as bs
  | _, _ => false

end

instance : BEq RawVal := ⟨RawVal.beq⟩

/-- A raw protocol record: a Python dict with string keys, modelled as an
association list (first binding wins, mirroring dict key uniqueness). -/
def RawRecord : Type := List (String × RawVal)

/-- `dict.get(k)` returning `None`-as-absent: the value at key `k`, if present. -/
def RawRecord.get (r : RawRecord) (k : String) : Option RawVal :=
  (List.find? (fun kv => kv.1 == k) r).map (fun kv => kv.2)

/-- `dict.get(k, d)`: the value at key `k`, or the default `d`. -/
def RawRecord.getD (r : RawRecord) (k : String) (d : RawVal) : RawVal :=
  (r.get k).getD d

/-- Value of a big-endian list of decimal digit characters, as a natural
number. -/
def digitsVal (cs : List Char) : ℕ :=
  cs.foldl (fun a c => a * 10 + (c.toNat - 48)) 0

/-- Model of Python `float(s)` on plain decimal literals: optional sign,
an integer part and/or a fractional part, at least one digit in total.
Exponents, `inf`/`nan`, underscores and surrounding whitespace are not
modelled and count as unparseable. -/
def pyParseFloat (s : String) : Option ℚ :=
  let p : List Char × ℚ :=
    match s.data with
    | '-' :: rest => (rest, -1)
    | '+' :: rest => (rest, 1)
    | cs => (cs, 1)
  let intPart := p.1.takeWhile (fun c => c.isDigit)
  let rest := p.1.dropWhile (fun c => c.isDigit)
  match rest with
  | [] =>
    if intPart.isEmpty then none else some (p.2 * (digitsVal intPart : ℚ))
  | '.' :: frac =>
    if frac.all (fun c => c.isDigit) && !(intPart.isEmpty && frac.isEmpty) then
      some (p.2 * ((digitsVal intPart : ℚ) + (digitsVal frac : ℚ) / ((10 : ℚ) ^ frac.length)))
    else none
  | _ => none

/-- `DefiDataCollector._safe_float`: `None` → 0.0; a number → itself; a string
→ its parsed value, or 0.0 when `float(...)` raises `ValueError`; any other
value (e.g. a list) raises `TypeError`, caught → 0.0. -/
def _safe_float : RawVal → ℚ
  | RawVal.vnone => 0
  | RawVal.num q => q
  | RawVal.str s => (pyParseFloat s).getD 0
  | RawVal.list _ => 0

/-- Python `len(v)`: defined for lists and strings, raises `TypeError`
(modelled `none`) otherwise. -/
def pyLen : RawVal → Option Nat
  | RawVal.list xs => some xs.length
  | RawVal.str s => some s.length
  | _ => none

/-- Python iteration `for x in v`: lists yield their elements, strings yield
their characters as one-character strings; other values raise `TypeError`
(modelled `none`). -/
def pyIter : RawVal → Option (List RawVal)
  | RawVal.list xs => some xs
  | RawVal.str s => some (s.data.map (fun c => RawVal.str (String.mk [c])))
  | _ => none

/-- Python hashability of a value used as a dict key: lists are unhashable
(`TypeError`), the other modelled values are hashable. -/
def pyHashable : RawVal → Bool
  | RawVal.list _ => false
  | _ => true

/-- The categorical risk tier returned by `_assess_risk_level`. -/
inductive RiskLevel : Type
  | low | medium | high | unknown
deriving DecidableEq

/-- Proleptic-Gregorian leap year. -/
def isLeapYear (y : ℕ) : Bool :=
  (y % 4 == 0 && y % 100 != 0) || y % 400 == 0

/-- Days in a month of the proleptic Gregorian calendar. -/
def daysInMonth (y m : ℕ) : ℕ :=
  if m = 2 then (if isLeapYear y then 29 else 28)
  else if m = 4 ∨ m = 6 ∨ m = 9 ∨ m = 11 then 30
  else 31

/-- Days before January 1st of year `y`, counting from year 1
(`datetime.toordinal` convention: 0001-01-01 has ordinal 1). -/
def daysBeforeYear (y : ℕ) : ℕ :=
  (y - 1) * 365 + (y - 1) / 4 - (y - 1) / 100 + (y - 1) / 400

/-- Days in year `y` before the first day of month `m`. -/
def daysBeforeMonth (y m : ℕ) : ℕ :=
  (List.range (m - 1)).foldl (fun a i => a + daysInMonth y (i + 1)) 0

/-- `datetime(y, m, d).toordinal()`. -/
def toOrdinal (y m d : ℕ) : ℕ :=
  daysBeforeYear y + daysBeforeMonth y m + d

/-- Two decimal digit characters as a number. -/
def twoDigits (a b : Char) : Option ℕ :=
  if a.isDigit && b.isDigit then some ((a.toNat - 48) * 10 + (b.toNat - 48))
  else none

/-- Seconds into the day encoded by the tail of an ISO-8601 string after the
date: empty, or a one-character separator followed by `HH:MM` or `HH:MM:SS`.
Fractional seconds and timezone offsets are not modelled and count as
unparseable. -/
def isoTimeSeconds : List Char → Option ℕ
  | [] => some 0
  | _sep :: h1 :: h2 :: ':' :: m1 :: m2 :: rest => do
    let h ← twoDigits h1 h2
    let m ← twoDigits m1 m2
    let s ← match rest with
      | [] => some 0
      | ':' :: s1 :: s2 :: [] => twoDigits s1 s2
      | _ => none
    if h ≤ 23 ∧ m ≤ 59 ∧ s ≤ 59 then some (h * 3600 + m * 60 + s) else none
  | _ => none

/-- Model of `datetime.fromisoformat(s).timestamp()`: parse `YYYY-MM-DD`
optionally followed by a separator and a time of day, and convert to epoch
seconds (the local-time offset applied by `.timestamp()` is modelled as 0).
Returns `none` when `fromisoformat` would raise `ValueError`. -/
def isoTimestamp (s : String) : Option ℚ :=
  match s.data with
  | y1 :: y2 :: y3 :: y4 :: '-' :: m1 :: m2 :: '-' :: d1 :: d2 :: rest => do
    let yh ← twoDigits y1 y2
    let yl ← twoDigits y3 y4
    let m ← twoDigits m1 m2
    let d ← twoDigits d1 d2
    let y := yh * 100 + yl
    if 1 ≤ y ∧ 1 ≤ m ∧ m ≤ 12 ∧ 1 ≤ d ∧ d ≤ daysInMonth y m then
      let secs ← isoTimeSeconds rest
      some ((((toOrdinal y m d : ℤ) - 719163) * 86400 + (secs : ℤ) : ℤ) : ℚ)
    else none
  | _ => none

/-- `DefiDataCollector._calculate_diversification_score`:
`min(len(chains)/10, 0.5) + 0.5`, where a `TypeError` from `len` on a
non-sequence `chains` value is caught and yields the default 0.5. -/
def _calculate_diversification_score (r : RawRecord) : ℚ :=
  match pyLen (r.getD "chains" (RawVal.list [])) with
  | some chain_count => min ((chain_count : ℚ) / 10) 0.5 + 0.5
  | none => 0.5

/-- The `created_at` handling of `_calculate_stability_score`: the timestamp
the code subtracts from `now`. Key absent → `datetime.now().timestamp()`
(i.e. `now`); a string → the parsed timestamp, or `now` on parse failure;
a number → itself (a raw epoch timestamp); any other value makes
`now - created_at` raise `TypeError`, modelled as `none`. -/
def createdTimestamp (now : ℚ) (r : RawRecord) : Option ℚ :=
  match r.get "created_at" with
  | none => some now
  | some (RawVal.num t) => some t
  | some (RawVal.str s) => some ((isoTimestamp (s.replace "Z" "")).getD now)
  | some _ => none

/-- `DefiDataCollector._calculate_stability_score`:
`min(tvl/1_000_000_000, 0.6) + min(age_days/365, 0.4)` with
`age_days = (now - created_at)/(24*3600)`; an exception inside the body
(from `now - created_at` on a non-numeric, non-string `created_at`) is
caught and yields the default 0.5. -/
def _calculate_stability_score (now : ℚ) (r : RawRecord) : ℚ :=
  let tvl := _safe_float (r.getD "tvl" (RawVal.num 0))
  match createdTimestamp now r with
  | none => 0.5
  | some created =>
    let age_days := (now - created) / (24 * 3600)
    min (tvl / 1000000000) 0.6 + min (age_days / 365) 0.4

/-- `DefiDataCollector._assess_risk_level`: sum a TVL bucket and a
chain-count bucket, then map the total through the `Low`/`Medium`/`High`
thresholds; an exception inside the body (from `len` on a non-sequence
`chains` value) is caught and yields `Unknown`. -/
def _assess_risk_level (r : RawRecord) : RiskLevel :=
  let tvl := _safe_float (r.getD "tvl" (RawVal.num 0))
  let tvlPts : ℕ := if tvl > 1000000000 then 1 else if tvl > 100000000 then 2 else 3
  match pyLen (r.getD "chains" (RawVal.list [])) with
  | none => RiskLevel.unknown
  | some chain_count =>
    let chainPts : ℕ := if chain_count > 5 then 1 else if chain_count > 2 then 2 else 3
    let risk_score := tvlPts + chainPts
    if risk_score ≤ 3 then RiskLevel.low
    else if risk_score ≤ 5 then RiskLevel.medium
    else RiskLevel.high

/-- The scored record built by `get_protocol_health_metrics` (the
`health_metrics` sub-dict is flattened into the three score fields). -/
structure ProtocolHealth : Type where
  name : RawVal
  tvl : ℚ
  mcap : ℚ
  mcap_tvl_ratio : ℚ
  chains : RawVal
  category : RawVal
  diversification_score : ℚ
  stability_score : ℚ
  risk_level : RiskLevel

/-- The record value assembled in the body of `get_protocol_health_metrics`. -/
def healthOf (now : ℚ) (p : RawRecord) : ProtocolHealth :=
  let tvl := _safe_float (p.getD "tvl" (RawVal.num 0))
  let mcap := _safe_float (p.getD "mcap" (RawVal.num 0))
  { name := p.getD "name" (RawVal.str "Unknown")
    tvl := tvl
    mcap := mcap
    mcap_tvl_ratio := if tvl > 0 then mcap / tvl else 0
    chains := p.getD "chains" (RawVal.list [])
    category := p.getD "category" (RawVal.str "Unknown")
    diversification_score := _calculate_diversification_score p
    stability_score := _calculate_stability_score now p
    risk_level := _assess_risk_level p }

/-- `DefiDataCollector.get_protocol_health_metrics`: the whole body sits in a
`try/except` that returns `None` on any exception; every operation in the
body is itself exception-safe (`dict.get` never raises, `_safe_float` and the
three score helpers catch their own exceptions, and the `mcap/tvl` division
is guarded by `tvl > 0`), so the `except` branch is dead code and the result
is always `some`. -/
def get_protocol_health_metrics (now : ℚ) (p : RawRecord) : Option ProtocolHealth :=
  some (healthOf now p)

/-- The sort key of `analyze_protocols`: `self._safe_float(x.get('tvl', 0))`. -/
def tvlKey (p : RawRecord) : ℚ :=
  _safe_float (p.getD "tvl" (RawVal.num 0))

instance tvlDescRelDec : DecidableRel (fun a b : RawRecord => tvlKey b ≤ tvlKey a) :=
  fun a b => inferInstanceAs (Decidable (tvlKey b ≤ tvlKey a))

instance tvlDescRelTotal : IsTotal RawRecord (fun a b => tvlKey b ≤ tvlKey a) :=
  ⟨fun a b => le_total (tvlKey b) (tvlKey a)⟩

instance tvlDescRelTrans : IsTrans RawRecord (fun a b => tvlKey b ≤ tvlKey a) :=
  ⟨fun _ _ _ h1 h2 => le_trans h2 h1⟩

/-- `sorted(protocols, key=..., reverse=True)`: Python's `sorted` is stable;
with `reverse=True` it orders by descending key and keeps ties in input
order. Modelled by a stable insertion sort with the descending relation. -/
def sortByTvlDesc (ps : List RawRecord) : List RawRecord :=
  ps.insertionSort (fun a b => tvlKey b ≤ tvlKey a)

/-- Python slice `xs[:n]`: the first `n` elements for `n ≥ 0` (clamped to the
length), and all but the last `|n|` elements for `n < 0` (empty when
`|n| ≥ len(xs)`). -/
def pySliceTo (n : ℤ) (xs : List α) : List α :=
  xs.take (if 0 ≤ n then n.toNat else ((xs.length : ℤ) + n).toNat)

/-- `DefiDataCollector.analyze_protocols` with the already-fetched raw
universe as input (the network fetch is the out-of-scope collaborator):
empty universe → empty result; otherwise sort by safe-float TVL descending,
slice to `top_n`, score each record keeping the non-`None` results, and
return the empty frame when nothing survived. The surrounding `try/except`
returns an empty frame on exception, and no operation in the body raises.
The collection timestamp stamped on the frame carries no information used by
any metric and is not modelled. -/
def analyze_protocols (now : ℚ) (protocols : List RawRecord) (top_n : ℤ) : List ProtocolHealth :=
  if protocols.isEmpty then []
  else
    let sorted_protocols := pySliceTo top_n (sortByTvlDesc protocols)
    let results := sorted_protocols.filterMap (get_protocol_health_metrics now)
    if results.isEmpty then [] else results

/-- `ProtocolAnalyzer._calculate_concentration`: the Herfindahl-Hirschman
index `Σ (v/total)²`, guarded to 0 when the total is 0. -/
def _calculate_concentration (values : List ℚ) : ℚ :=
  let total := values.sum
  if total = 0 then 0
  else (values.map (fun v => (v / total) ^ 2)).sum

/-- One step of the chain-counting loop: `chain_counts[chain] =
chain_counts.get(chain, 0) + 1`, preserving dict insertion order
(first-seen key order). -/
def bumpCount (counts : List (RawVal × ℕ)) (k : RawVal) : List (RawVal × ℕ) :=
  match counts with
  | [] => [(k, 1)]
  | (k0, c0) :: rest => if k0 == k then (k0, c0 + 1) :: rest else (k0, c0) :: bumpCount rest k

/-- The chain-counting loop of `_analyze_chain_distribution`: `for chains in
data['chains']: for chain in chains: count`. Iterating a non-iterable
`chains` value, or using an unhashable chain element as a dict key, raises
`TypeError` (modelled `none`). -/
def chainCounts (cs : List RawVal) : Option (List (RawVal × ℕ)) :=
  cs.foldlM
    (fun acc chains => do
      let elems ← pyIter chains
      elems.foldlM
        (fun acc2 e => if pyHashable e then some (bumpCount acc2 e) else none)
        acc)
    []

instance countDescRelDec : DecidableRel (fun a b : RawVal × ℕ => b.2 ≤ a.2) :=
  fun a b => inferInstanceAs (Decidable (b.2 ≤ a.2))

/-- The `chain_distribution` sub-dict of the market metrics. -/
structure ChainDistribution : Type where
  most_popular_chains : List (RawVal × ℕ)
  chain_diversity : ℕ
  average_chains_per_protocol : ℚ

/-- The lengths of the `chains` values, failing on the first value on which
`len` raises (the evaluation of `sum(len(chains) for chains in ...)`). -/
def pyLens : List RawVal → Option (List ℕ)
  | [] => some []
  | v :: t => do
    let n ← pyLen v
    let rest ← pyLens t
    some (n :: rest)

/-- `ProtocolAnalyzer._analyze_chain_distribution`: count chain memberships,
report the 5 most popular chains (stable sort descending by count, ties in
first-seen order), the number of distinct chains, and the average
chain-membership count per protocol. The average divides two Python ints, so
an empty collection raises `ZeroDivisionError`, and `len` of a non-sequence
`chains` value raises `TypeError`; both are modelled as `none` (the caller's
`except` turns them into the empty-dict result). -/
def _analyze_chain_distribution (c : List ProtocolHealth) : Option ChainDistribution := do
  let counts ← chainCounts (c.map (fun p => p.chains))
  let lens ← pyLens (c.map (fun p => p.chains))
  if c.length = 0 then none
  else
    some
      { most_popular_chains := (counts.insertionSort (fun a b => b.2 ≤ a.2)).take 5
        chain_diversity := counts.length
        average_chains_per_protocol := ((lens.sum : ℕ) : ℚ) / (c.length : ℚ) }

/-- The `risk_distribution` sub-dict of the market metrics. The
`value_counts().to_dict()` result is modelled as one count per tier (the
dict's ordering and its omission of zero-count tiers carry no information
used anywhere). -/
structure RiskDistribution : Type where
  low_count : ℕ
  medium_count : ℕ
  high_count : ℕ
  unknown_count : ℕ
  high_risk_tvl : ℚ

/-- `ProtocolAnalyzer._analyze_risk_distribution`: counts per risk tier and
the total TVL of `High`-risk protocols. -/
def _analyze_risk_distribution (c : List ProtocolHealth) : RiskDistribution :=
  { low_count := (c.filter (fun p => p.risk_level = RiskLevel.low)).length
    medium_count := (c.filter (fun p => p.risk_level = RiskLevel.medium)).length
    high_count := (c.filter (fun p => p.risk_level = RiskLevel.high)).length
    unknown_count := (c.filter (fun p => p.risk_level = RiskLevel.unknown)).length
    high_risk_tvl := ((c.filter (fun p => p.risk_level = RiskLevel.high)).map (fun p => p.tvl)).sum }

/-- The `top_protocols_dominance` sub-dict. Each ratio is an `Option ℚ`:
`none` models the non-finite float (NaN or ±inf) produced by the unguarded
division when the total TVL is exactly 0. -/
structure TopDominance : Type where
  top_3_dominance : Option ℚ
  top_5_dominance : Option ℚ
  top_10_dominance : Option ℚ

instance qDescRelDec : DecidableRel (fun a b : ℚ => b ≤ a) :=
  fun a b => inferInstanceAs (Decidable (b ≤ a))

instance qDescRelTotal : IsTotal ℚ (fun a b : ℚ => b ≤ a) :=
  ⟨fun a b => le_total b a⟩

instance qDescRelTrans : IsTrans ℚ (fun a b : ℚ => b ≤ a) :=
  ⟨fun _ _ _ h1 h2 => le_trans h2 h1⟩

/-- `data['tvl'].nlargest(k).sum()`: the sum of the `k` largest values
(all of them when fewer than `k` exist). -/
def nlargestSum (k : ℕ) (values : List ℚ) : ℚ :=
  ((values.insertionSort (fun a b : ℚ => b ≤ a)).take k).sum

/-- `ProtocolAnalyzer._calculate_top_dominance`:
`(nlargest(k).sum() / total_tvl) * 100` for k ∈ {3, 5, 10}, with no guard on
`total_tvl = 0` (a zero total gives a non-finite float, modelled `none`). -/
def _calculate_top_dominance (c : List ProtocolHealth) : TopDominance :=
  let tvls := c.map (fun p => p.tvl)
  let total_tvl := tvls.sum
  let dom : ℕ → Option ℚ := fun k =>
    if total_tvl = 0 then none else some (nlargestSum k tvls / total_tvl * 100)
  { top_3_dominance := dom 3
    top_5_dominance := dom 5
    top_10_dominance := dom 10 }

/-- The `market` metrics dict assembled by `calculate_market_metrics`. -/
structure MarketMetrics : Type where
  total_tvl : ℚ
  average_tvl : ℚ
  tvl_concentration : ℚ
  chain_distribution : ChainDistribution
  risk_distribution : RiskDistribution
  top_protocols_dominance : TopDominance

/-- `ProtocolAnalyzer.calculate_market_metrics`: the whole body sits in a
`try/except` that logs and returns the empty dict `{}` on any exception;
that failure result is modelled as `none`. On the empty collection the body
always raises (on an empty frame the `'tvl'` column lookup raises `KeyError`;
on an empty collection with columns, `_analyze_chain_distribution` divides
by `len(data) = 0`), so the empty collection yields `none`. `average_tvl`
(`data['tvl'].mean()`) is only exposed on nonempty collections, where it is
the exact `total/n`. -/
def calculate_market_metrics (c : List ProtocolHealth) : Option MarketMetrics := do
  let tvls := c.map (fun p => p.tvl)
  let cd ← _analyze_chain_distribution c
  some
    { total_tvl := tvls.sum
      average_tvl := tvls.sum / (c.length : ℚ)
      tvl_concentration := _calculate_concentration tvls
      chain_distribution := cd
      risk_distribution := _analyze_risk_distribution c
      top_protocols_dominance := _calculate_top_dominance c }

/-! Spec-side definitions, written from the specification's wording, to be
compared with the source-side functions above. -/

/-- Spec wording of the TVL bucket: `tvl > 1e9 → +1`; `1e8 < tvl ≤ 1e9 → +2`;
else `+3`. -/
def spec_tvl_bucket (tvl : ℚ) : ℕ :=
  if 1000000000 < tvl then 1
  else if 100000000 < tvl ∧ tvl ≤ 1000000000 then 2
  else 3

/-- Spec wording of the chain-count bucket: `chains > 5 → +1`;
`2 < chains ≤ 5 → +2`; else `+3`. -/
def spec_chain_bucket (n : ℕ) : ℕ :=
  if 5 < n then 1
  else if 2 < n ∧ n ≤ 5 then 2
  else 3

/-- Spec wording of the risk-score map: `≤3 → Low`, `4–5 → Medium`,
`6 → High`. -/
def spec_risk_map (s : ℕ) : RiskLevel :=
  if s ≤ 3 then RiskLevel.low
  else if 4 ≤ s ∧ s ≤ 5 then RiskLevel.medium
  else RiskLevel.high

/-- Spec wording of `age_days`: 0 whenever `created_at` is absent or fails
to parse, otherwise the elapsed seconds since the (parsed or numeric)
creation timestamp divided into days. -/
def spec_age_days (now : ℚ) (r : RawRecord) : ℚ :=
  match r.get "created_at" with
  | none => 0
  | some (RawVal.num t) => (now - t) / 86400
  | some (RawVal.str s) =>
    match isoTimestamp (s.replace "Z" "") with
    | some t => (now - t) / 86400
    | none => 0
  | some _ => 0

/-- `created_at` is of a kind the stability computation handles without an
exception: absent, a number, or a string. -/
def createdKindOK (r : RawRecord) : Bool :=
  match r.get "created_at" with
  | none => true
  | some (RawVal.num _) => true
  | some (RawVal.str _) => true
  | some _ => false

/-- The creation timestamp the code derives is not in the future (so the
derived age is nonnegative); vacuously true on the exception kind. -/
def createdAgeOK (now : ℚ) (r : RawRecord) : Bool :=
  match createdTimestamp now r with
  | some t => decide (t ≤ now)
  | none => true

/-- The `chains` value is one the chain-counting loop of
`_analyze_chain_distribution` processes without an exception: a list of
hashable elements, or a string. -/
def chainsCountable : RawVal → Bool
  | RawVal.list xs => xs.all pyHashable
  | RawVal.str _ => true
  | _ => false

/-! Concrete fixtures used to instantiate hypotheses. -/

/-- A raw record with TVL 5. -/
def rawA : RawRecord :=
  [("name", RawVal.str "A"), ("tvl", RawVal.num 5), ("chains", RawVal.list [])]

/-- A raw record with TVL 3. -/
def rawB : RawRecord :=
  [("name", RawVal.str "B"), ("tvl", RawVal.num 3), ("chains", RawVal.list [])]

/-- A scored record with TVL 0 (a legitimate member of a scored collection). -/
def zeroHealth : ProtocolHealth :=
  { name := RawVal.str "Z", tvl := 0, mcap := 0, mcap_tvl_ratio := 0
    chains := RawVal.list [], category := RawVal.str "Unknown"
    diversification_score := 1/2, stability_score := 0
    risk_level := RiskLevel.high }

/-- A record whose `chains` value is a number, so `len(chains)` raises. -/
def rawChainsNum : RawRecord := [("chains", RawVal.num 5)]

/-- A record with TVL 2 and market cap 4. -/
def rawTM : RawRecord := [("tvl", RawVal.num 2), ("mcap", RawVal.num 4)]

/-- A record with a negative numeric TVL. -/
def rawNegTvl : RawRecord := [("tvl", RawVal.num (-2000000000))]

/-- A record whose `created_at` is a list, so `now - created_at` raises. -/
def rawBadCreated : RawRecord := [("created_at", RawVal.list [])]

/-- A record with TVL 2e9 on six chains. -/
def rawBig : RawRecord :=
  [("tvl", RawVal.num 2000000000),
   ("chains", RawVal.list [RawVal.vnone, RawVal.vnone, RawVal.vnone,
     RawVal.vnone, RawVal.vnone, RawVal.vnone])]

/-- A scored record with TVL 5. -/
def posHealth : ProtocolHealth :=
  { name := RawVal.str "P", tvl := 5, mcap := 0, mcap_tvl_ratio := 0
    chains := RawVal.list [], category := RawVal.str "Unknown"
    diversification_score := 1/2, stability_score := 0
    risk_level := RiskLevel.high }

/-! General lemmas about the embedding. -/

/-- The empty-result guard of `analyze_protocols` is the identity on lists. -/
theorem ite_isEmpty_eq {α : Type} (l : List α) :
    (if l.isEmpty then ([] : List α) else l) = l := by
  cases l <;> simp

/-- Scoring never drops a record: `get_protocol_health_metrics` is `some` on
every input, so filtering the scored records is just mapping `healthOf`. -/
theorem filterMap_health (now : ℚ) (l : List RawRecord) :
    l.filterMap (get_protocol_health_metrics now) = l.map (healthOf now) := by
  induction l with
  | nil => rfl
  | cons a t ih => simp [List.filterMap_cons, get_protocol_health_metrics, ih]

/-- The sort of `analyze_protocols` preserves length. -/
theorem length_sortByTvlDesc (ps : List RawRecord) :
    (sortByTvlDesc ps).length = ps.length :=
  List.length_insertionSort _ ps

/-- The sort of `analyze_protocols` is sorted by descending TVL key. -/
theorem sortByTvlDesc_sorted (ps : List RawRecord) :
    List.Sorted (fun a b => tvlKey b ≤ tvlKey a) (sortByTvlDesc ps) :=
  List.sorted_insertionSort _ ps

/-- The TVL field of a scored record is the sort key of its raw record. -/
theorem healthOf_tvl (now : ℚ) (r : RawRecord) : (healthOf now r).tvl = tvlKey r := rfl

/-- The code's TVL bucket (an if-chain with `elif`) agrees with the spec's
two-sided wording of the middle bucket. -/
theorem tvl_bucket_agree (tvl : ℚ) :
    (if tvl > 1000000000 then 1 else if tvl > 100000000 then 2 else 3 : ℕ) =
      spec_tvl_bucket tvl := by
  unfold spec_tvl_bucket
  by_cases h1 : (1000000000 : ℚ) < tvl
  · simp [h1]
  · by_cases h2 : (100000000 : ℚ) < tvl
    · simp [h1, h2, le_of_not_lt h1]
    · simp [h1, h2]

/-- The code's chain-count bucket agrees with the spec's two-sided wording of
the middle bucket. -/
theorem chain_bucket_agree (n : ℕ) :
    (if n > 5 then 1 else if n > 2 then 2 else 3 : ℕ) = spec_chain_bucket n := by
  unfold spec_chain_bucket
  by_cases h1 : 5 < n
  · simp [h1]
  · by_cases h2 : 2 < n
    · simp [h1, h2, Nat.le_of_not_lt h1]
    · simp [h1, h2]

/-- The code's threshold map agrees with the spec's `4–5 → Medium` wording. -/
theorem risk_map_agree (s : ℕ) :
    (if s ≤ 3 then RiskLevel.low else if s ≤ 5 then RiskLevel.medium
      else RiskLevel.high) = spec_risk_map s := by
  unfold spec_risk_map
  by_cases h1 : s ≤ 3
  · simp [h1]
  · by_cases h2 : s ≤ 5
    · have h4 : 4 ≤ s ∧ s ≤ 5 := ⟨by omega, h2⟩
      simp [h1, h2, h4]
    · have h4 : ¬(4 ≤ s ∧ s ≤ 5) := by omega
      simp [h1, h2, h4]

/-- C5: for every raw record whose `chains` value supports `len` (reported as
`some n`), the risk tier equals the spec's bucket sum mapped through the
spec's thresholds: risk_score = TVL bucket + chain-count bucket lies in
[2,6], with `≤3 → Low`, `4–5 → Medium`, `6 → High`. -/
theorem assess_risk_level_buckets (r : RawRecord) (n : ℕ)
    (h : pyLen (r.getD "chains" (RawVal.list [])) = some n) :
    2 ≤ spec_tvl_bucket (tvlKey r) + spec_chain_bucket n ∧
    spec_tvl_bucket (tvlKey r) + spec_chain_bucket n ≤ 6 ∧
    _assess_risk_level r = spec_risk_map (spec_tvl_bucket (tvlKey r) + spec_chain_bucket n) := by
  have hb1 : 1 ≤ spec_tvl_bucket (tvlKey r) ∧ spec_tvl_bucket (tvlKey r) ≤ 3 := by
    unfold spec_tvl_bucket; split_ifs <;> omega
  have hb2 : 1 ≤ spec_chain_bucket n ∧ spec_chain_bucket n ≤ 3 := by
    unfold spec_chain_bucket; split_ifs <;> omega
  refine ⟨by omega, by omega, ?_⟩
  unfold _assess_risk_level tvlKey
  rw [h]
  dsimp only
  rw [tvl_bucket_agree, chain_bucket_agree, risk_map_agree]

/-- C5 witness: a record with TVL 2e9 on 6 chains satisfies the hypothesis
and is classified Low. -/
theorem assess_risk_level_buckets_witness :
    pyLen (rawBig.getD "chains" (RawVal.list [])) = some 6 ∧
    _assess_risk_level rawBig = RiskLevel.low :=
  ⟨rfl, (assess_risk_level_buckets rawBig 6 rfl).2.2.trans (by decide)⟩

/-- C10: the exception branch of `_assess_risk_level` is unreachable whenever
`chains` supports `len`: the result is then one of Low/Medium/High, and
`Unknown` is returned exactly when `len(chains)` raises. -/
theorem assess_risk_level_unknown_iff (r : RawRecord) :
    ((∃ n, pyLen (r.getD "chains" (RawVal.list [])) = some n) →
      (_assess_risk_level r = RiskLevel.low ∨ _assess_risk_level r = RiskLevel.medium ∨
        _assess_risk_level r = RiskLevel.high)) ∧
    (_assess_risk_level r = RiskLevel.unknown ↔
      pyLen (r.getD "chains" (RawVal.list [])) = none) := by
  unfold _assess_risk_level
  cases hl : pyLen (r.getD "chains" (RawVal.list [])) with
  | none => simp
  | some n =>
    constructor
    · intro _
      dsimp only
      split_ifs <;> simp
    · dsimp only
      split_ifs <;> simp

/-- C10 witness: a record whose `chains` is a (empty) list satisfies the
hypothesis and is classified High. -/
theorem assess_risk_level_unknown_iff_witness :
    _assess_risk_level rawB = RiskLevel.low ∨ _assess_risk_level rawB = RiskLevel.medium ∨
      _assess_risk_level rawB = RiskLevel.high :=
  (assess_risk_level_unknown_iff rawB).1 ⟨0, rfl⟩

/-- C2 (amended): `analyze_protocols` performs no validation of `top_n`:
for every `top_n < 0` it does not fail but returns a well-formed collection
whose length is `max(len(universe) + top_n, 0)` (Python slice semantics),
one scored record per raw record that survives the slice. -/
theorem analyze_protocols_no_topn_validation (now : ℚ) (ps : List RawRecord) (n : ℤ)
    (hn : n < 0) :
    (analyze_protocols now ps n).length = ((ps.length : ℤ) + n).toNat := by
  unfold analyze_protocols pySliceTo
  have hn' : ¬ (0 : ℤ) ≤ n := not_le.mpr hn
  by_cases hps : ps.isEmpty
  · have h0 : ps = [] := List.isEmpty_iff.mp hps
    subst h0
    simp only [List.isEmpty_nil, if_true, List.length_nil]
    omega
  · simp only [hps, Bool.false_eq_true, if_false, hn', ite_isEmpty_eq, filterMap_health,
      List.length_map, List.length_take, length_sortByTvlDesc]
    omega

/-- C2 counterexample to the claim as stated: with `top_n = -1` on a
two-record universe the pipeline does not fail fast — it returns a nonempty
well-formed collection (there is no validation and the surrounding
`try/except` would in any case swallow an error into an empty frame, never
raise one). -/
theorem analyze_protocols_negative_topn_returns_collection :
    (analyze_protocols 0 [rawA, rawB] (-1)).length = 1 := by
  decide

/-- C2 witness: the amended claim instantiated at `top_n = -1` on the
two-record universe. -/
theorem analyze_protocols_no_topn_validation_witness :
    (-1 : ℤ) < 0 ∧
    (analyze_protocols 0 [rawA, rawB] (-1)).length =
      ((([rawA, rawB] : List RawRecord).length : ℤ) + (-1)).toNat :=
  ⟨by decide, analyze_protocols_no_topn_validation 0 [rawA, rawB] (-1) (by decide)⟩

/-- C9: for `top_n < 0`, `analyze_protocols` does not raise: Python slice
semantics make `[:top_n]` keep the first `len + top_n` entries of the
TVL-descending sorted universe (all but the last `|top_n|`), each scored;
the result is empty when `|top_n| ≥` the universe size; and every kept entry
has TVL key at least that of every dropped entry (the slice drops the
`|top_n|` smallest-TVL records). -/
theorem analyze_protocols_negative_topn_slice (now : ℚ) (ps : List RawRecord) (n : ℤ)
    (hn : n < 0) :
    analyze_protocols now ps n =
      ((sortByTvlDesc ps).take (((ps.length : ℤ) + n).toNat)).map (healthOf now) ∧
    (((ps.length : ℤ) + n ≤ 0) → analyze_protocols now ps n = []) ∧
    (∀ a ∈ (sortByTvlDesc ps).take (((ps.length : ℤ) + n).toNat),
      ∀ b ∈ (sortByTvlDesc ps).drop (((ps.length : ℤ) + n).toNat),
        tvlKey b ≤ tvlKey a) := by
  have hn' : ¬ (0 : ℤ) ≤ n := not_le.mpr hn
  have hmain : analyze_protocols now ps n =
      ((sortByTvlDesc ps).take (((ps.length : ℤ) + n).toNat)).map (healthOf now) := by
    unfold analyze_protocols pySliceTo
    by_cases hps : ps.isEmpty
    · have h0 : ps = [] := List.isEmpty_iff.mp hps
      subst h0
      simp [sortByTvlDesc, List.insertionSort]
    · simp only [hps, Bool.false_eq_true, if_false, hn', ite_isEmpty_eq, filterMap_health,
        length_sortByTvlDesc]
  refine ⟨hmain, ?_, ?_⟩
  · intro hle
    rw [hmain]
    have : (((ps.length : ℤ) + n)).toNat = 0 := by omega
    rw [this]
    simp
  · intro a ha b hb
    exact (sortByTvlDesc_sorted ps).rel_of_mem_take_of_mem_drop ha hb

/-- C9 witness: with `top_n = -1` on the two-record universe, the slice keeps
exactly the higher-TVL record. -/
theorem analyze_protocols_negative_topn_slice_witness :
    analyze_protocols 0 [rawA, rawB] (-1) =
      ((sortByTvlDesc [rawA, rawB]).take 1).map (healthOf 0) :=
  (analyze_protocols_negative_topn_slice 0 [rawA, rawB] (-1) (by decide)).1

/-- C6: for every raw universe and every `top_n ≥ 0`, the pipeline returns
between 0 and `top_n` records, sorted by TVL non-increasing; the underlying
sort is a permutation of the fetched universe ordered by the safe-float TVL
key descending, and it is stable: any pair already in descending-or-tied key
order in fetch order keeps that order (ties are broken by fetch order). -/
theorem analyze_protocols_sorted_and_bounded (now : ℚ) (ps : List RawRecord) (n : ℤ)
    (hn : 0 ≤ n) :
    ((analyze_protocols now ps n).length : ℤ) ≤ n ∧
    (analyze_protocols now ps n).Pairwise (fun p q => q.tvl ≤ p.tvl) ∧
    List.Perm (sortByTvlDesc ps) ps ∧
    (∀ a b : RawRecord, tvlKey b ≤ tvlKey a → List.Sublist [a, b] ps →
      List.Sublist [a, b] (sortByTvlDesc ps)) := by
  have hmain : analyze_protocols now ps n =
      ((sortByTvlDesc ps).take n.toNat).map (healthOf now) := by
    unfold analyze_protocols pySliceTo
    by_cases hps : ps.isEmpty
    · have h0 : ps = [] := List.isEmpty_iff.mp hps
      subst h0
      simp [sortByTvlDesc, List.insertionSort]
    · simp only [hps, Bool.false_eq_true, if_false, if_pos hn, ite_isEmpty_eq,
        filterMap_health]
  refine ⟨?_, ?_, List.perm_insertionSort _ ps, ?_⟩
  · rw [hmain]
    simp only [List.length_map, List.length_take]
    omega
  · rw [hmain, List.pairwise_map]
    refine List.Pairwise.sublist (List.take_sublist _ _) ?_
    exact (sortByTvlDesc_sorted ps).imp (fun h => by simpa [healthOf_tvl] using h)
  · intro a b hab hsub
    exact List.pair_sublist_insertionSort hab hsub

/-- C6 witness: on the two-record universe with `top_n = 2` the result has at
most 2 records and is sorted by TVL non-increasing. -/
theorem analyze_protocols_sorted_and_bounded_witness :
    ((analyze_protocols 0 [rawA, rawB] 2).length : ℤ) ≤ 2 ∧
    (analyze_protocols 0 [rawA, rawB] 2).Pairwise (fun p q => q.tvl ≤ p.tvl) :=
  ⟨(analyze_protocols_sorted_and_bounded 0 [rawA, rawB] 2 (by decide)).1,
   (analyze_protocols_sorted_and_bounded 0 [rawA, rawB] 2 (by decide)).2.1⟩

/-- C4 counterexample to the claim as stated: on a record whose `chains` is a
number, `len(chains)` raises inside both score helpers, yet the record does
not resolve to absent — scoring returns a fully built record whose failed
fields carry the per-helper defaults (diversification 0.5, risk Unknown). -/
theorem scoring_failure_yields_defaults_not_absent :
    pyLen (RawVal.num 5) = none ∧
    (get_protocol_health_metrics 0 rawChainsNum).isSome = true ∧
    (get_protocol_health_metrics 0 rawChainsNum).map
      (fun p => p.diversification_score) = some (1/2) ∧
    (get_protocol_health_metrics 0 rawChainsNum).map
      (fun p => p.risk_level) = some RiskLevel.unknown := by
  refine ⟨rfl, rfl, ?_, rfl⟩
  show some (_calculate_diversification_score rawChainsNum) = some (1/2)
  norm_num [_calculate_diversification_score, rawChainsNum, RawRecord.getD,
    RawRecord.get, pyLen]

/-- C4 (amended): scoring never throws and never resolves a record to
absent: `get_protocol_health_metrics` is `some` on every input; an exception
inside a helper is contained in that helper and surfaces as its default
(diversification 0.5 and risk Unknown when `len(chains)` raises, stability
0.5 when `now - created_at` raises), leaving the rest of the record built
from the raw fields. -/
theorem scoring_total_with_helper_defaults (now : ℚ) (r : RawRecord) :
    (get_protocol_health_metrics now r).isSome = true ∧
    (pyLen (r.getD "chains" (RawVal.list [])) = none →
      (get_protocol_health_metrics now r).map
        (fun p => p.diversification_score) = some 0.5 ∧
      (get_protocol_health_metrics now r).map
        (fun p => p.risk_level) = some RiskLevel.unknown) ∧
    (createdTimestamp now r = none →
      (get_protocol_health_metrics now r).map
        (fun p => p.stability_score) = some 0.5) := by
  refine ⟨rfl, fun h => ⟨?_, ?_⟩, fun h => ?_⟩
  · show some (_calculate_diversification_score r) = some 0.5
    rw [_calculate_diversification_score, h]
  · show some (_assess_risk_level r) = some RiskLevel.unknown
    rw [_assess_risk_level, h]
  · show some (_calculate_stability_score now r) = some 0.5
    rw [_calculate_stability_score, h]

/-- C4 witness: the record with numeric `chains` satisfies the failure
hypothesis and yields the defaulted (not absent) record. -/
theorem scoring_total_with_helper_defaults_witness :
    pyLen (RawRecord.getD rawChainsNum "chains" (RawVal.list [])) = none ∧
    ((get_protocol_health_metrics 0 rawChainsNum).map
       (fun p => p.diversification_score) = some 0.5 ∧
     (get_protocol_health_metrics 0 rawChainsNum).map
       (fun p => p.risk_level) = some RiskLevel.unknown) :=
  ⟨rfl, (scoring_total_with_helper_defaults 0 rawChainsNum).2.1 rfl⟩

/-- The diversification score always lies in [0.5, 1]: the exception default
is 0.5 and the chain-count contribution is capped by `min(·, 0.5)`. -/
theorem div_score_bounds (r : RawRecord) :
    1/2 ≤ _calculate_diversification_score r ∧
    _calculate_diversification_score r ≤ 1 := by
  unfold _calculate_diversification_score
  cases pyLen (r.getD "chains" (RawVal.list [])) with
  | none => norm_num
  | some n =>
    dsimp only
    have h1 : (0:ℚ) ≤ (n:ℚ)/10 := by positivity
    have h2 : (0:ℚ) ≤ min ((n:ℚ)/10) 0.5 := le_min h1 (by norm_num)
    have h3 : min ((n:ℚ)/10) 0.5 ≤ 0.5 := min_le_right _ _
    constructor <;> linarith

/-- If the derived creation timestamp is not in the future, the stability
score is nonnegative (the exception default 0.5 included). -/
theorem stability_nonneg (now : ℚ) (r : RawRecord)
    (htvl : 0 ≤ tvlKey r) (hage : createdAgeOK now r = true) :
    0 ≤ _calculate_stability_score now r := by
  unfold tvlKey at htvl
  unfold _calculate_stability_score
  unfold createdAgeOK at hage
  cases h : createdTimestamp now r with
  | none => norm_num
  | some t =>
    rw [h] at hage
    have ht : t ≤ now := of_decide_eq_true hage
    dsimp only
    have h1 : (0:ℚ) ≤ min (_safe_float (r.getD "tvl" (RawVal.num 0)) / 1000000000) 0.6 :=
      le_min (div_nonneg htvl (by norm_num)) (by norm_num)
    have h2 : (0:ℚ) ≤ min ((now - t) / (24 * 3600) / 365) 0.4 :=
      le_min (div_nonneg (div_nonneg (sub_nonneg.mpr ht) (by norm_num)) (by norm_num))
        (by norm_num)
    linarith

/-- C3 counterexample to the claim as stated: a record with numeric TVL −1 is
scored to a record whose `tvl` field is the negative parsed value (the
safe-float rule passes negative numbers through), so the numeric fields are
not all nonnegative. -/
theorem health_metrics_negative_field :
    (get_protocol_health_metrics 0 [("tvl", RawVal.num (-1))]).map
      (fun p => p.tvl) = some (-1) ∧
    ¬ (0:ℚ) ≤ -1 :=
  ⟨rfl, by norm_num⟩

/-- C3 (amended): the scorer follows the safe-float rule (`None` → 0,
unparseable string → 0, a number → itself), and when the raw TVL and mcap
coerce to nonnegative values and the derived creation timestamp is not in
the future, every numeric field of the (always present) scored record is
nonnegative, with the diversification score in [0.5, 1]. -/
theorem health_metrics_nonneg_fields (now : ℚ) (r : RawRecord)
    (htvl : 0 ≤ tvlKey r)
    (hmcap : 0 ≤ _safe_float (r.getD "mcap" (RawVal.num 0)))
    (hage : createdAgeOK now r = true) :
    get_protocol_health_metrics now r = some (healthOf now r) ∧
    0 ≤ (healthOf now r).tvl ∧
    0 ≤ (healthOf now r).mcap ∧
    0 ≤ (healthOf now r).mcap_tvl_ratio ∧
    1/2 ≤ (healthOf now r).diversification_score ∧
    (healthOf now r).diversification_score ≤ 1 ∧
    0 ≤ (healthOf now r).stability_score ∧
    _safe_float RawVal.vnone = 0 ∧
    (∀ s, pyParseFloat s = none → _safe_float (RawVal.str s) = 0) ∧
    (∀ q, _safe_float (RawVal.num q) = q) := by
  have hratio : 0 ≤ (healthOf now r).mcap_tvl_ratio := by
    show 0 ≤ (if _safe_float (r.getD "tvl" (RawVal.num 0)) > 0 then
      _safe_float (r.getD "mcap" (RawVal.num 0)) /
        _safe_float (r.getD "tvl" (RawVal.num 0)) else 0)
    split_ifs with hpos
    · exact div_nonneg hmcap (le_of_lt hpos)
    · exact le_refl 0
  refine ⟨rfl, htvl, hmcap, hratio, (div_score_bounds r).1, (div_score_bounds r).2,
    stability_nonneg now r htvl hage, rfl, ?_, fun q => rfl⟩
  intro s hs
  show (pyParseFloat s).getD 0 = 0
  rw [hs]
  rfl

/-- C3 witness: a record with TVL 2 and mcap 4 (and no `created_at`)
satisfies the hypotheses and is scored with all-nonnegative fields. -/
theorem health_metrics_nonneg_fields_witness :
    (0 ≤ tvlKey rawTM ∧
     0 ≤ _safe_float (RawRecord.getD rawTM "mcap" (RawVal.num 0)) ∧
     createdAgeOK 0 rawTM = true) ∧
    (0 ≤ (healthOf 0 rawTM).tvl ∧ 0 ≤ (healthOf 0 rawTM).mcap ∧
     0 ≤ (healthOf 0 rawTM).mcap_tvl_ratio ∧
     0 ≤ (healthOf 0 rawTM).stability_score) := by
  have h := health_metrics_nonneg_fields 0 rawTM (by decide) (by decide) (by decide)
  exact ⟨⟨by decide, by decide, by decide⟩, h.2.1, h.2.2.1, h.2.2.2.1,
    h.2.2.2.2.2.2.1⟩

/-- C8 counterexample to the claim as stated: (i) a record with numeric TVL
−2e9 (and no `created_at`) gets stability score −2, outside [0, 1]; (ii) a
record whose `created_at` is a list makes `now - created_at` raise, so the
caught exception yields the default 0.5, which differs from the claimed
formula value (here `min(0/1e9, 0.6) + min(0/365, 0.4) = 0`). -/
theorem stability_score_range_violations :
    _calculate_stability_score 0 rawNegTvl = -2 ∧
    ¬ (0:ℚ) ≤ -2 ∧
    _calculate_stability_score 0 rawBadCreated = 1/2 ∧
    _calculate_stability_score 0 rawBadCreated ≠
      min (tvlKey rawBadCreated / 1000000000) 0.6 +
        min (spec_age_days 0 rawBadCreated / 365) 0.4 := by
  have h1 : _calculate_stability_score 0 rawNegTvl = -2 := by
    show (min (_safe_float (RawVal.num (-2000000000)) / 1000000000) 0.6 +
      min (((0:ℚ) - 0) / (24 * 3600) / 365) 0.4) = -2
    norm_num [_safe_float]
  have h2 : _calculate_stability_score 0 rawBadCreated = 1/2 := by
    show (0.5 : ℚ) = 1/2
    norm_num
  refine ⟨h1, by norm_num, h2, ?_⟩
  rw [h2]
  show (1/2 : ℚ) ≠ min ((0:ℚ) / 1000000000) 0.6 + min ((0:ℚ) / 365) 0.4
  norm_num

/-- C8 (amended): whenever `created_at` is absent, a number, or a string,
the stability score equals `min(tvl/1e9, 0.6) + min(age_days/365, 0.4)` with
`age_days` zero on an absent or unparseable `created_at`; under the
additional hypotheses that the coerced TVL is nonnegative and the derived
age is nonnegative, the score lies in [0, 1]; for any other `created_at`
value the internal exception yields the default 0.5. -/
theorem stability_score_formula (now : ℚ) (r : RawRecord) :
    (createdKindOK r = true →
      _calculate_stability_score now r =
        min (tvlKey r / 1000000000) 0.6 + min (spec_age_days now r / 365) 0.4) ∧
    (createdKindOK r = true → 0 ≤ tvlKey r → 0 ≤ spec_age_days now r →
      0 ≤ _calculate_stability_score now r ∧
      _calculate_stability_score now r ≤ 1) ∧
    (createdKindOK r = false → _calculate_stability_score now r = 1/2) := by
  have heq : createdKindOK r = true →
      _calculate_stability_score now r =
        min (tvlKey r / 1000000000) 0.6 + min (spec_age_days now r / 365) 0.4 := by
    intro hk
    unfold createdKindOK at hk
    unfold _calculate_stability_score createdTimestamp spec_age_days tvlKey
    rcases hc : r.get "created_at" with _ | v
    · norm_num
    · cases v with
      | vnone => rw [hc] at hk; simp at hk
      | num t =>
        dsimp only
        norm_num
      | str s =>
        dsimp only
        rcases hp : isoTimestamp (s.replace "Z" "") with _ | t
        · norm_num
        · dsimp only [Option.getD]
          norm_num
      | list xs => rw [hc] at hk; simp at hk
  refine ⟨heq, fun hk htvl hagev => ?_, fun hk => ?_⟩
  · rw [heq hk]
    have l1 : (0:ℚ) ≤ min (tvlKey r / 1000000000) 0.6 :=
      le_min (div_nonneg htvl (by norm_num)) (by norm_num)
    have l2 : (0:ℚ) ≤ min (spec_age_days now r / 365) 0.4 :=
      le_min (div_nonneg hagev (by norm_num)) (by norm_num)
    have u1 : min (tvlKey r / 1000000000) 0.6 ≤ 0.6 := min_le_right _ _
    have u2 : min (spec_age_days now r / 365) 0.4 ≤ 0.4 := min_le_right _ _
    constructor <;> linarith
  · unfold createdKindOK at hk
    unfold _calculate_stability_score createdTimestamp
    rcases hc : r.get "created_at" with _ | v
    · rw [hc] at hk; simp at hk
    · cases v with
      | vnone => norm_num
      | num t => rw [hc] at hk; simp at hk
      | str s => rw [hc] at hk; simp at hk
      | list xs => norm_num

/-- C8 witness: a record with TVL 1 and no `created_at` satisfies the
hypotheses; its stability score equals the formula and lies in [0, 1]. -/
theorem stability_score_formula_witness :
    (createdKindOK rawTM = true ∧ 0 ≤ tvlKey rawTM ∧
      0 ≤ spec_age_days 0 rawTM) ∧
    (_calculate_stability_score 0 rawTM =
       min (tvlKey rawTM / 1000000000) 0.6 +
         min (spec_age_days 0 rawTM / 365) 0.4 ∧
     0 ≤ _calculate_stability_score 0 rawTM ∧
     _calculate_stability_score 0 rawTM ≤ 1) := by
  have h := stability_score_formula 0 rawTM
  have hb := h.2.1 (by decide) (by decide) (by decide)
  exact ⟨⟨by decide, by decide, by decide⟩, h.1 (by decide), hb.1, hb.2⟩

/-- Prefix sums of a list of nonnegative values are monotone in the prefix
length. -/
theorem sum_take_le_sum_take {l : List ℚ} (h : ∀ v ∈ l, 0 ≤ v) {j k : ℕ}
    (hjk : j ≤ k) : (l.take j).sum ≤ (l.take k).sum := by
  have hsplit : l.take k = l.take j ++ (l.drop j).take (k - j) := by
    rw [← List.take_add]
    congr 1
    omega
  rw [hsplit, List.sum_append]
  have h0 : 0 ≤ ((l.drop j).take (k - j)).sum := by
    refine List.sum_nonneg ?_
    intro x hx
    exact h x (List.mem_of_mem_drop (List.mem_of_mem_take hx))
  linarith

/-- `nlargest(j).sum() ≤ nlargest(k).sum()` for `j ≤ k` over nonnegative
values. -/
theorem nlargestSum_mono {l : List ℚ} (h : ∀ v ∈ l, 0 ≤ v) {j k : ℕ}
    (hjk : j ≤ k) : nlargestSum j l ≤ nlargestSum k l := by
  refine sum_take_le_sum_take ?_ hjk
  intro v hv
  exact h v ((List.mem_insertionSort _).mp hv)

/-- `nlargest(k).sum()` never exceeds the total over nonnegative values. -/
theorem nlargestSum_le_sum {l : List ℚ} (h : ∀ v ∈ l, 0 ≤ v) (k : ℕ) :
    nlargestSum k l ≤ l.sum := by
  unfold nlargestSum
  have hperm : List.Perm (l.insertionSort (fun a b : ℚ => b ≤ a)) l :=
    List.perm_insertionSort _ l
  have hsum : (l.insertionSort (fun a b : ℚ => b ≤ a)).sum = l.sum := hperm.sum_eq
  have hsplit := List.take_append_drop k (l.insertionSort (fun a b : ℚ => b ≤ a))
  have h0 : 0 ≤ ((l.insertionSort (fun a b : ℚ => b ≤ a)).drop k).sum := by
    refine List.sum_nonneg ?_
    intro x hx
    exact h x ((List.mem_insertionSort _).mp (List.mem_of_mem_drop hx))
  have : ((l.insertionSort (fun a b : ℚ => b ≤ a)).take k).sum +
      ((l.insertionSort (fun a b : ℚ => b ≤ a)).drop k).sum = l.sum := by
    rw [← List.sum_append, hsplit, hsum]
  linarith

/-- C7 counterexample to the claim as stated: on the single-record collection
with TVL 0 the aggregator's dominance ratios are the non-finite result of
dividing by a zero total (modelled `none`), so `top_3_dominance` is neither
0 nor a number bounded by 100. -/
theorem dominance_nan_on_zero_total :
    (_calculate_top_dominance [zeroHealth]).top_3_dominance = none ∧
    ¬ ∃ d : ℚ, (_calculate_top_dominance [zeroHealth]).top_3_dominance = some d ∧
      d ≤ 100 := by
  have h : (_calculate_top_dominance [zeroHealth]).top_3_dominance = none := by
    unfold _calculate_top_dominance
    have h0 : (([zeroHealth].map (fun p => p.tvl)).sum : ℚ) = 0 := by
      simp [zeroHealth]
    dsimp only
    rw [if_pos h0]
  refine ⟨h, ?_⟩
  rintro ⟨d, hd, _⟩
  rw [h] at hd
  exact Option.noConfusion hd

/-- C7 (amended): over a collection of nonnegative TVLs with positive total,
the dominance ratios are finite and monotonically non-decreasing in k:
top_3 ≤ top_5 ≤ top_10 ≤ 100; when the total TVL is 0 they are NaN
(modelled `none`), not 0. -/
theorem dominance_monotone (c : List ProtocolHealth)
    (hnn : ∀ p ∈ c, 0 ≤ p.tvl)
    (hpos : 0 < (c.map (fun p => p.tvl)).sum) :
    ∃ d3 d5 d10,
      (_calculate_top_dominance c).top_3_dominance = some d3 ∧
      (_calculate_top_dominance c).top_5_dominance = some d5 ∧
      (_calculate_top_dominance c).top_10_dominance = some d10 ∧
      d3 ≤ d5 ∧ d5 ≤ d10 ∧ d10 ≤ 100 := by
  have hnn' : ∀ v ∈ c.map (fun p => p.tvl), 0 ≤ v := by
    intro v hv
    obtain ⟨p, hp, rfl⟩ := List.mem_map.mp hv
    exact hnn p hp
  have hT : ¬ (c.map (fun p => p.tvl)).sum = 0 := ne_of_gt hpos
  unfold _calculate_top_dominance
  dsimp only
  rw [if_neg hT, if_neg hT, if_neg hT]
  refine ⟨_, _, _, rfl, rfl, rfl, ?_, ?_, ?_⟩
  · exact mul_le_mul_of_nonneg_right
      ((div_le_div_iff_of_pos_right hpos).mpr (nlargestSum_mono hnn' (by norm_num)))
      (by norm_num)
  · exact mul_le_mul_of_nonneg_right
      ((div_le_div_iff_of_pos_right hpos).mpr (nlargestSum_mono hnn' (by norm_num)))
      (by norm_num)
  · have h1 : nlargestSum 10 (c.map (fun p => p.tvl)) / (c.map (fun p => p.tvl)).sum ≤ 1 :=
      (div_le_one hpos).mpr (nlargestSum_le_sum hnn' 10)
    calc nlargestSum 10 (c.map (fun p => p.tvl)) / (c.map (fun p => p.tvl)).sum * 100
        ≤ 1 * 100 := mul_le_mul_of_nonneg_right h1 (by norm_num)
      _ = 100 := one_mul 100

/-- C7 witness: the single-record collection with TVL 5 satisfies the
hypotheses and has all three dominance ratios defined and bounded. -/
theorem dominance_monotone_witness :
    (∀ p ∈ [posHealth], 0 ≤ p.tvl) ∧
    0 < (([posHealth].map (fun p => p.tvl)).sum) ∧
    ∃ d3 d5 d10,
      (_calculate_top_dominance [posHealth]).top_3_dominance = some d3 ∧
      (_calculate_top_dominance [posHealth]).top_5_dominance = some d5 ∧
      (_calculate_top_dominance [posHealth]).top_10_dominance = some d10 ∧
      d3 ≤ d5 ∧ d5 ≤ d10 ∧ d10 ≤ 100 := by
  have h1 : ∀ p ∈ [posHealth], 0 ≤ p.tvl := by
    intro p hp
    rw [List.mem_singleton] at hp
    subst hp
    norm_num [posHealth]
  have h2 : 0 < (([posHealth].map (fun p => p.tvl)).sum) := by
    simp [posHealth]
  exact ⟨h1, h2, dominance_monotone [posHealth] h1 h2⟩

/-- The inner chain-counting fold succeeds on a list of hashable elements. -/
theorem inner_count_fold_isSome (es : List RawVal) :
    ∀ acc : List (RawVal × ℕ), (∀ e ∈ es, pyHashable e = true) →
      (es.foldlM
        (fun acc2 e => if pyHashable e then some (bumpCount acc2 e) else none)
        acc).isSome = true := by
  induction es with
  | nil => intro acc _; rfl
  | cons e t ih =>
    intro acc h
    rw [List.foldlM_cons]
    have he : pyHashable e = true := h e (List.mem_cons_self e t)
    simp only [he, if_true, Option.bind_eq_bind, Option.some_bind]
    exact ih (bumpCount acc e) (fun x hx => h x (List.mem_cons_of_mem e hx))

/-- Iterating a countable `chains` value yields hashable elements. -/
theorem pyIter_of_countable {v : RawVal} (hv : chainsCountable v = true) :
    ∃ es, pyIter v = some es ∧ ∀ e ∈ es, pyHashable e = true := by
  cases v with
  | vnone => simp [chainsCountable] at hv
  | num q => simp [chainsCountable] at hv
  | str s =>
    refine ⟨_, rfl, ?_⟩
    intro e he
    simp only [pyIter, List.mem_map] at he
    obtain ⟨ch, _, rfl⟩ := he
    rfl
  | list xs =>
    refine ⟨xs, rfl, ?_⟩
    simpa [chainsCountable, List.all_eq_true] using hv

/-- The outer chain-counting fold succeeds from any accumulator when every
`chains` value is countable. -/
theorem chainCounts_fold_isSome (cs : List RawVal) :
    ∀ acc : List (RawVal × ℕ), (∀ v ∈ cs, chainsCountable v = true) →
      (cs.foldlM
        (fun acc chains => do
          let elems ← pyIter chains
          elems.foldlM
            (fun acc2 e => if pyHashable e then some (bumpCount acc2 e) else none)
            acc)
        acc).isSome = true := by
  induction cs with
  | nil => intro acc _; rfl
  | cons v t ih =>
    intro acc h
    rw [List.foldlM_cons]
    obtain ⟨es, hes, hhash⟩ := pyIter_of_countable (h v (List.mem_cons_self v t))
    obtain ⟨acc', hacc'⟩ :=
      Option.isSome_iff_exists.mp (inner_count_fold_isSome es acc hhash)
    simp only [hes, hacc', Option.bind_eq_bind, Option.some_bind]
    exact ih acc' (fun x hx => h x (List.mem_cons_of_mem v hx))

/-- The chain-counting loop succeeds when every `chains` value is countable. -/
theorem chainCounts_isSome (cs : List RawVal)
    (h : ∀ v ∈ cs, chainsCountable v = true) :
    (chainCounts cs).isSome = true :=
  chainCounts_fold_isSome cs [] h

/-- `len` succeeds on every countable `chains` value. -/
theorem pyLen_of_countable {v : RawVal} (hv : chainsCountable v = true) :
    ∃ n, pyLen v = some n := by
  cases v with
  | vnone => simp [chainsCountable] at hv
  | num q => simp [chainsCountable] at hv
  | str s => exact ⟨s.length, rfl⟩
  | list xs => exact ⟨xs.length, rfl⟩

/-- Taking `len` of every `chains` value succeeds when each is countable. -/
theorem pyLens_isSome (vs : List RawVal)
    (h : ∀ v ∈ vs, chainsCountable v = true) :
    (pyLens vs).isSome = true := by
  induction vs with
  | nil => rfl
  | cons v t ih =>
    obtain ⟨n, hn⟩ := pyLen_of_countable (h v (List.mem_cons_self v t))
    obtain ⟨ls, hls⟩ := Option.isSome_iff_exists.mp
      (ih (fun x hx => h x (List.mem_cons_of_mem v hx)))
    simp [pyLens, hn, hls]

/-- The chain-distribution dict is produced whenever the collection is
nonempty and every `chains` value is countable. -/
theorem chain_distribution_isSome (c : List ProtocolHealth)
    (hne : c ≠ [])
    (hch : ∀ p ∈ c, chainsCountable p.chains = true) :
    ∃ cd, _analyze_chain_distribution c = some cd := by
  have hch' : ∀ v ∈ c.map (fun p => p.chains), chainsCountable v = true := by
    intro v hv
    obtain ⟨p, hp, rfl⟩ := List.mem_map.mp hv
    exact hch p hp
  obtain ⟨counts, hcounts⟩ :=
    Option.isSome_iff_exists.mp (chainCounts_isSome _ hch')
  obtain ⟨lens, hlens⟩ :=
    Option.isSome_iff_exists.mp (pyLens_isSome _ hch')
  have hlen0 : ¬ c.length = 0 := by
    simpa [List.length_eq_zero] using hne
  refine Option.isSome_iff_exists.mp ?_
  unfold _analyze_chain_distribution
  simp only [hcounts, hlens, Option.bind_eq_bind, Option.some_bind, hlen0, if_false]
  rfl

/-- C1 counterexample to the claim as stated: `calculate_market_metrics` on
the empty collection does not return zeroed metrics — the internal error
(empty-frame column lookup / division by `len(data) = 0`) is caught and the
empty dict (modelled `none`) is returned; and on a nonempty collection whose
total TVL is 0 the dominance ratios are NaN (modelled `none`), not 0, because
the dominance division has no zero guard. -/
theorem market_metrics_empty_failure :
    calculate_market_metrics [] = none ∧
    (calculate_market_metrics [zeroHealth]).map
      (fun m => m.top_protocols_dominance.top_3_dominance) = some none := by
  constructor
  · rfl
  · have hcd : ∃ cd, _analyze_chain_distribution [zeroHealth] = some cd :=
      chain_distribution_isSome [zeroHealth] (by simp)
        (by intro p hp; rw [List.mem_singleton] at hp; subst hp; rfl)
    obtain ⟨cd, hcd⟩ := hcd
    unfold calculate_market_metrics
    simp only [hcd, Option.bind_eq_bind, Option.some_bind, Option.map_some]
    have h0 : (([zeroHealth].map (fun p => p.tvl)).sum : ℚ) = 0 := by
      simp [zeroHealth]
    unfold _calculate_top_dominance
    dsimp only
    rw [if_pos h0]
    rfl

/-- C1 (amended): `calculate_market_metrics` never raises, but on the empty
collection it returns the caught-failure empty dict (modelled `none`) rather
than zeroed metrics; on any nonempty collection with countable `chains`
values whose total TVL is 0, it returns metrics with `total_tvl = 0`,
`tvl_concentration = 0` (that division is guarded), and all three dominance
ratios NaN (modelled `none`, the unguarded division by the zero total). -/
theorem market_metrics_zero_total (c : List ProtocolHealth)
    (hne : c ≠ [])
    (hch : ∀ p ∈ c, chainsCountable p.chains = true)
    (h0 : (c.map (fun p => p.tvl)).sum = 0) :
    calculate_market_metrics [] = none ∧
    ∃ m, calculate_market_metrics c = some m ∧
      m.total_tvl = 0 ∧
      m.tvl_concentration = 0 ∧
      m.top_protocols_dominance.top_3_dominance = none ∧
      m.top_protocols_dominance.top_5_dominance = none ∧
      m.top_protocols_dominance.top_10_dominance = none := by
  refine ⟨rfl, ?_⟩
  obtain ⟨cd, hcd⟩ := chain_distribution_isSome c hne hch
  have heq : calculate_market_metrics c =
      some { total_tvl := (c.map (fun p => p.tvl)).sum
             average_tvl := (c.map (fun p => p.tvl)).sum / (c.length : ℚ)
             tvl_concentration := _calculate_concentration (c.map (fun p => p.tvl))
             chain_distribution := cd
             risk_distribution := _analyze_risk_distribution c
             top_protocols_dominance := _calculate_top_dominance c } := by
    unfold calculate_market_metrics
    simp only [hcd, Option.bind_eq_bind, Option.some_bind]
  refine ⟨_, heq, h0, ?_, ?_, ?_, ?_⟩
  · show _calculate_concentration (c.map (fun p => p.tvl)) = 0
    unfold _calculate_concentration
    dsimp only
    rw [if_pos h0]
  · show (_calculate_top_dominance c).top_3_dominance = none
    unfold _calculate_top_dominance
    dsimp only
    rw [if_pos h0]
  · show (_calculate_top_dominance c).top_5_dominance = none
    unfold _calculate_top_dominance
    dsimp only
    rw [if_pos h0]
  · show (_calculate_top_dominance c).top_10_dominance = none
    unfold _calculate_top_dominance
    dsimp only
    rw [if_pos h0]

/-- C1 witness: the single-record collection with TVL 0 satisfies the
hypotheses; the metrics are produced with zero total and NaN dominance. -/
theorem market_metrics_zero_total_witness :
    calculate_market_metrics [] = none ∧
    ∃ m, calculate_market_metrics [zeroHealth] = some m ∧
      m.total_tvl = 0 ∧
      m.tvl_concentration = 0 ∧
      m.top_protocols_dominance.top_3_dominance = none ∧
      m.top_protocols_dominance.top_5_dominance = none ∧
      m.top_protocols_dominance.top_10_dominance = none :=
  market_metrics_zero_total [zeroHealth] (by simp)
    (by intro p hp; rw [List.mem_singleton] at hp; subst hp; rfl)
    (by simp [zeroHealth])
